import Mathlib

/-! Verification development for the CTFd provisioning subsystem of haaukins:
a shallow embedding of the readiness poller (waitForServer), the session
client (getNonce and form submission), the flag seeder (createFlag and the
loop in configureInstance), the orchestrator (New) and teardown (Close),
together with theorems about their behaviour. Machine effects (HTTP probes,
container runtime calls, filesystem calls) are abstracted as explicit
outcome environments, and each operation additionally produces the list of
observable events it performed, in order. -/

namespace CtfdSpec

/-- Outcome of one readiness probe (one http.Get inside waitForServer):
either a transport-level failure (a net.Error, e.g. connection refused) or
an HTTP response carrying the given status code. -/
inductive Probe
  | transport
  | status (code : Nat)
deriving DecidableEq

/-- Terminal result of the readiness poll: ok (the poll function returned
nil), fatal (a non-200 response, returned immediately), or unavailable
(ServerUnavailableErr, sent when the context deadline fires). -/
inductive PollResult
  | ok
  | fatal (code : Nat)
  | unavailable
deriving DecidableEq

/-- Embedding of the polling goroutine of waitForServer. `fuel` is the
number of whole seconds left before the context deadline; `i` indexes the
next probe and equals the number of one-second backoffs performed so far,
since every transient outcome sleeps exactly one second. The result pairs
the terminal outcome with the number of backoffs performed. The source
checks ctx.Done() before each attempt, retries only on net.Error after the
one-second sleep, and forwards any other value (nil included) immediately;
a response with StatusCode different from 200 becomes the fatal error. -/
def waitLoop (outcomes : Nat → Probe) : Nat → Nat → PollResult × Nat
  | 0, i => (PollResult.unavailable, i)
  | fuel + 1, i =>
    match outcomes i with
    | Probe.transport => waitLoop outcomes fuel (i + 1)
    | Probe.status c =>
        if c = 200 then (PollResult.ok, i) else (PollResult.fatal c, i)

/-- Deadline of waitForServer: context.WithTimeout with time.Minute,
measured in one-second backoff units. -/
def waitForServerTimeout : Nat := 60

/-- Context timeout of CmdEventStop in the cli client: 30 * time.Second. -/
def cmdEventStopTimeout : Nat := 30

/-- Context timeout of CmdEventTeamRestart in the cli client:
60 * time.Second. -/
def cmdEventTeamRestartTimeout : Nat := 60

/-- Embedding of waitForServer over an abstract sequence of probe outcomes
and a deadline measured in seconds. -/
def waitForServer (outcomes : Nat → Probe) (deadline : Nat) : PollResult × Nat :=
  waitLoop outcomes deadline 0

theorem waitLoop_terminal (outcomes : Nat → Probe) :
    ∀ k fuel i c, k < fuel →
      (∀ j, j < k → outcomes (i + j) = Probe.transport) →
      outcomes (i + k) = Probe.status c →
      waitLoop outcomes fuel i =
        if c = 200 then (PollResult.ok, i + k) else (PollResult.fatal c, i + k) := by
  intro k
  induction k with
  | zero =>
      intro fuel i c hfuel _ hterm
      cases fuel with
      | zero => omega
      | succ f =>
          rw [Nat.add_zero] at hterm
          simp [waitLoop, hterm]
  | succ k ih =>
      intro fuel i c hfuel htrans hterm
      cases fuel with
      | zero => omega
      | succ f =>
          have h0 : outcomes i = Probe.transport := by
            have := htrans 0 (Nat.succ_pos k)
            simpa using this
          have step : waitLoop outcomes (f + 1) i = waitLoop outcomes f (i + 1) := by
            simp [waitLoop, h0]
          rw [step]
          have htrans2 : ∀ j, j < k → outcomes (i + 1 + j) = Probe.transport := by
            intro j hj
            have := htrans (j + 1) (by omega)
            have harith : i + (j + 1) = i + 1 + j := by omega
            rwa [harith] at this
          have hterm2 : outcomes (i + 1 + k) = Probe.status c := by
            have harith : i + (k + 1) = i + 1 + k := by omega
            rwa [harith] at hterm
          have := ih f (i + 1) c (by omega) htrans2 hterm2
          rw [this]
          have harith : i + 1 + k = i + (k + 1) := by omega
          rw [harith]

theorem waitLoop_unavailable (outcomes : Nat → Probe) :
    ∀ fuel i, (waitLoop outcomes fuel i).1 = PollResult.unavailable ↔
      ∀ j, j < fuel → outcomes (i + j) = Probe.transport := by
  intro fuel
  induction fuel with
  | zero =>
      intro i
      simp [waitLoop]
  | succ f ih =>
      intro i
      cases h : outcomes i with
      | transport =>
          have step : waitLoop outcomes (f + 1) i = waitLoop outcomes f (i + 1) := by
            simp [waitLoop, h]
          rw [step, ih (i + 1)]
          constructor
          · intro H j hj
            cases j with
            | zero => simpa using h
            | succ j =>
                have := H j (by omega)
                have harith : i + 1 + j = i + (j + 1) := by omega
                rwa [harith] at this
          · intro H j hj
            have := H (j + 1) (by omega)
            have harith : i + (j + 1) = i + 1 + j := by omega
            rwa [harith] at this
      | status c =>
          have hne : (waitLoop outcomes (f + 1) i).1 ≠ PollResult.unavailable := by
            by_cases hc : c = 200 <;> simp [waitLoop, h, hc]
          constructor
          · intro H
            exact absurd H hne
          · intro H
            have := H 0 (Nat.succ_pos f)
            rw [Nat.add_zero, h] at this
            exact absurd this (by simp)

/-- C4: waitForServer reports ServerUnavailable exactly when the deadline
elapses with every probe attempted before it transient — that is, when no
terminal outcome (a 200 success or a fatal non-200 response) is observed
within the deadline. -/
theorem waitForServer_unavailable_iff (outcomes : Nat → Probe) (deadline : Nat) :
    (waitForServer outcomes deadline).1 = PollResult.unavailable ↔
      ∀ j, j < deadline → outcomes j = Probe.transport := by
  have := waitLoop_unavailable outcomes deadline 0
  simpa using this

theorem waitForServer_unavailable_iff_witness :
    (waitForServer (fun _ => Probe.transport) 60).1 = PollResult.unavailable :=
  (waitForServer_unavailable_iff (fun _ => Probe.transport) 60).mpr (fun _ _ => rfl)

/-- C3 counterexample: a first probe outcome of HTTP 204 — a 2xx response —
with zero preceding transport failures. The claim, as stated over 2xx
responses, predicts success after zero backoffs; the code compares the
status against 200 exactly, so it returns the fatal outcome instead. -/
theorem waitReady_twoxx_cex :
    waitForServer (fun _ => Probe.status 204) 60 = (PollResult.fatal 204, 0) ∧
      waitForServer (fun _ => Probe.status 204) 60 ≠ (PollResult.ok, 0) := by
  constructor
  · rfl
  · decide

/-- C3 amended: with the first k outcomes transport failures and the
(k+1)-th an HTTP 200 response, k within the deadline, waitForServer
succeeds after exactly k one-second backoffs; and when the first outcome is
any non-200 HTTP response, it fails immediately with that fatal outcome,
performing zero backoffs and no further attempts. -/
theorem waitReady_success_and_fatal (o1 o2 : Nat → Probe) (k d1 d2 c : Nat)
    (hk : ∀ j, j < k → o1 j = Probe.transport)
    (h200 : o1 k = Probe.status 200)
    (hkd : k < d1)
    (h0 : o2 0 = Probe.status c) (hc : c ≠ 200) (hd2 : 0 < d2) :
    waitForServer o1 d1 = (PollResult.ok, k) ∧
      waitForServer o2 d2 = (PollResult.fatal c, 0) := by
  constructor
  · have := waitLoop_terminal o1 k d1 0 200 hkd (by simpa using hk) (by simpa using h200)
    simpa [waitForServer] using this
  · have := waitLoop_terminal o2 0 d2 0 c hd2 (by omega) (by simpa using h0)
    rw [if_neg hc] at this
    simpa [waitForServer] using this

theorem waitReady_success_and_fatal_witness :
    waitForServer (fun i => if i < 3 then Probe.transport else Probe.status 200) 60
        = (PollResult.ok, 3) ∧
      waitForServer (fun _ => Probe.status 500) 60 = (PollResult.fatal 500, 0) :=
  waitReady_success_and_fatal
    (fun i => if i < 3 then Probe.transport else Probe.status 200)
    (fun _ => Probe.status 500) 3 60 60 500
    (fun j hj => by simp [hj]) (by norm_num) (by norm_num) rfl (by norm_num) (by norm_num)

/-- Literal prefix matcher: consumes the pattern characters from the front
of the input, returning the rest of the input on success. -/
def stripLit : List Char → List Char → Option (List Char)
  | [], cs => some cs
  | _ :: _, [] => none
  | p :: ps, c :: cs => if c = p then stripLit ps cs else none

/-- Greedy capture for the tail `(.+)"` of the nonce pattern: `.` matches
any character except a newline, `+` is greedy, so the capture extends to
the last double quote inside the maximal newline-free run, and must be
nonempty. Returns none when no such closing quote exists. -/
def captureGreedy (cs : List Char) : Option (List Char) :=
  let run := cs.takeWhile (fun c => ¬ c = '\n')
  match ((List.range run.length).filter
      (fun j => decide (1 ≤ j) && decide (run.get? j = some '"'))).getLast? with
  | none => none
  | some j => some (run.take j)

/-- Characters of the literal `csrf_nonce` heading the pattern. -/
def noncePat : List Char := ['c', 's', 'r', 'f', '_', 'n', 'o', 'n', 'c', 'e']

/-- Matcher for the nonce pattern anchored at the start of the input, with
the character class admitted around the equals sign given by `gap`. The
pattern is the literal `csrf_nonce`, a greedy run of gap characters, `=`,
another gap run, `"`, then the greedy nonempty capture closed by `"`.
Since no gap character can begin the following literal, consuming the
maximal gap run is equivalent to the backtracking search. -/
def matchNonceAtGen (gap : Char → Bool) (cs : List Char) : Option (List Char) :=
  match stripLit noncePat cs with
  | none => none
  | some cs1 =>
    match stripLit ['='] (cs1.dropWhile gap) with
    | none => none
    | some cs3 =>
      match stripLit ['"'] (cs3.dropWhile gap) with
      | none => none
      | some cs5 => captureGreedy cs5

/-- Leftmost-match scan: tries the anchored matcher at each successive
start position and returns the first capture found, mirroring
FindAllSubmatch with limit 1 under Go's leftmost matching. -/
def findNonceGen (gap : Char → Bool) : List Char → Option (List Char)
  | [] => none
  | c :: cs =>
    match matchNonceAtGen gap (c :: cs) with
    | some v => some v
    | none => findNonceGen gap (cs)

/-- Gap class of the source pattern NONCEREGEXP, `csrf_nonce[ ]*=[ ]*"(.+)"`:
only the literal space character. -/
def isSpaceChar (c : Char) : Bool := c = ' '

/-- Gap class of the whitespace escape in the RE2 dialect: `[\t\n\f\r ]`. -/
def isReWhitespace (c : Char) : Bool :=
  c = ' ' || c = '\t' || c = '\n' || c = '\x0c' || c = '\r'

/-- Nonce search of the source: NONCEREGEXP applied with FindAllSubmatch,
keeping the first match's capture. -/
def findNonce : List Char → Option (List Char) :=
  findNonceGen isSpaceChar

/-- Nonce search as the specification words it, with arbitrary whitespace
admitted around the equals sign. -/
def specFindNonce : List Char → Option (List Char) :=
  findNonceGen isReWhitespace

/-- Outcome of one page fetch by the session client: a transport failure of
the GET, or a response body. -/
inductive FetchOutcome
  | fail
  | ok (body : List Char)
deriving DecidableEq

/-- Error kinds of the subsystem. -/
inductive Err
  | cookieJar
  | hostIp
  | tempDir
  | containerCreate
  | containerStart
  | containerClose
  | serverUnavailable
  | badStatus (code : Nat)
  | nonceNotFound
  | transport
  | removeFail
deriving DecidableEq

/-- Embedding of getNonce: propagate a transport failure of the GET, scan
the body with the nonce pattern, report the nonce-not-found error on zero
matches and the first capture otherwise. -/
def getNonce : FetchOutcome → Except Err (List Char)
  | FetchOutcome.fail => Except.error Err.transport
  | FetchOutcome.ok body =>
    match findNonce body with
    | none => Except.error Err.nonceNotFound
    | some v => Except.ok v

theorem findNonceGen_eq_none_iff (gap : Char → Bool) :
    ∀ cs, findNonceGen gap cs = none ↔
      ∀ i, matchNonceAtGen gap (cs.drop i) = none := by
  intro cs
  induction cs with
  | nil =>
      simp [findNonceGen]
      simp [matchNonceAtGen, noncePat, stripLit]
  | cons c cs ih =>
      cases h : matchNonceAtGen gap (c :: cs) with
      | some v =>
          have hl : findNonceGen gap (c :: cs) = some v := by
            simp [findNonceGen, h]
          simp [hl]
          exact ⟨0, by simp [h]⟩
      | none =>
          have hl : findNonceGen gap (c :: cs) = findNonceGen gap cs := by
            simp [findNonceGen, h]
          rw [hl, ih]
          constructor
          · intro H i
            cases i with
            | zero => simpa using h
            | succ i => simpa using H i
          · intro H i
            have := H (i + 1)
            simpa using this

theorem findNonceGen_eq_some (gap : Char → Bool) :
    ∀ cs v, findNonceGen gap cs = some v →
      ∃ i, matchNonceAtGen gap (cs.drop i) = some v ∧
        ∀ j, j < i → matchNonceAtGen gap (cs.drop j) = none := by
  intro cs
  induction cs with
  | nil => intro v hv; simp [findNonceGen] at hv
  | cons c cs ih =>
      intro v hv
      cases h : matchNonceAtGen gap (c :: cs) with
      | some w =>
          have hw : v = w := by
            simp [findNonceGen, h] at hv
            exact hv.symm
          refine ⟨0, ?_, ?_⟩
          · rw [List.drop_zero, h, hw]
          · intro j hj; omega
      | none =>
          have hl : findNonceGen gap cs = some v := by
            simpa [findNonceGen, h] using hv
          obtain ⟨i, hi, hlt⟩ := ih v hl
          refine ⟨i + 1, by simpa using hi, ?_⟩
          intro j hj
          cases j with
          | zero => simpa using h
          | succ j =>
              have := hlt j (by omega)
              simpa using this

/-- C5 amended: getNonce scans the fetched body with the source pattern
`csrf_nonce[ ]*=[ ]*"(.+)"` — only literal spaces admitted around the
equals sign — returning the nonce-not-found error exactly when no start
position of the body matches that pattern, and the capture of the leftmost
match when one exists. -/
theorem getNonce_spec (body : List Char) :
    (getNonce (FetchOutcome.ok body) = Except.error Err.nonceNotFound ↔
      ∀ i, matchNonceAtGen isSpaceChar (body.drop i) = none) ∧
    ∀ v, getNonce (FetchOutcome.ok body) = Except.ok v →
      ∃ i, matchNonceAtGen isSpaceChar (body.drop i) = some v ∧
        ∀ j, j < i → matchNonceAtGen isSpaceChar (body.drop j) = none := by
  constructor
  · have hui : getNonce (FetchOutcome.ok body) = Except.error Err.nonceNotFound ↔
        findNonce body = none := by
      cases h : findNonce body with
      | none => simp [getNonce, h]
      | some v => simp [getNonce, h]
    rw [hui]
    exact findNonceGen_eq_none_iff isSpaceChar body
  · intro v hv
    have hf : findNonce body = some v := by
      cases h : findNonce body with
      | none => simp [getNonce, h] at hv
      | some w =>
          simp [getNonce, h] at hv
          rw [hv]
    exact findNonceGen_eq_some isSpaceChar body v hf

theorem getNonce_spec_witness :
    getNonce (FetchOutcome.ok ("csrf_nonce = ".toList ++ ['"', 't', 'o', 'k', '"'])) =
        Except.ok ['t', 'o', 'k'] ∧
      ∃ i, matchNonceAtGen isSpaceChar
            ((("csrf_nonce = ".toList ++ ['"', 't', 'o', 'k', '"'])).drop i) =
          some ['t', 'o', 'k'] :=
  ⟨by rfl,
   match (getNonce_spec ("csrf_nonce = ".toList ++ ['"', 't', 'o', 'k', '"'])).2
       ['t', 'o', 'k'] (by rfl) with
   | ⟨i, hi, _⟩ => ⟨i, hi⟩⟩

/-- C5 counterexample: the body `csrf_nonce<TAB>= "abc"` contains one match
of the claimed pattern with `\s*` around the equals sign, so the claim
predicts that the capture `abc` is returned; the source pattern admits only
literal spaces, and getNonce reports the nonce-not-found error. -/
theorem getNonce_whitespace_cex :
    specFindNonce ("csrf_nonce\t= ".toList ++ ['"', 'a', 'b', 'c', '"']) =
        some ['a', 'b', 'c'] ∧
      getNonce (FetchOutcome.ok ("csrf_nonce\t= ".toList ++ ['"', 'a', 'b', 'c', '"'])) =
        Except.error Err.nonceNotFound := by
  constructor
  · decide
  · rfl

/-- Pages fetched or posted to by the session client. -/
inductive Pg
  | setupPg
  | chalNewPg
deriving DecidableEq

/-- Observable events of one provisioning run, in order of occurrence. -/
inductive Ev
  | tempDirEv
  | newContainerEv (portBound : Bool)
  | startContainerEv (portBound : Bool)
  | waitReadyEv
  | getNonceEv (p : Pg)
  | postSetupEv
  | postChalEv (chalName : String)
  | closeContainerEv (portBound : Bool)
deriving DecidableEq

/-- Outcome of one form POST: a transport failure of httpclient.Do, or a
response carrying the given status code. -/
inductive SubmitOutcome
  | transportErr
  | response (code : Nat)
deriving DecidableEq

/-- Result of a POST as the source observes it: a transport failure is
propagated, and any response — its status code never inspected — is
success, its body merely closed. This embeds the tails of createFlag and
configureInstance, which return nil after httpclient.Do succeeds. -/
def submitResult : SubmitOutcome → Option Err
  | SubmitOutcome.transportErr => some Err.transport
  | SubmitOutcome.response _ => none

/-- One flag definition of the configuration (exercise.FlagConfig). -/
structure FlagConfig where
  flagName : String
  defaultVal : String
  points : Nat
deriving DecidableEq

/-- Environment of one createFlag call: the outcome of the nonce-page GET
and the outcome of the multipart POST. -/
structure FlagStep where
  nonceFetch : FetchOutcome
  post : SubmitOutcome
deriving DecidableEq

/-- Events performed by one createFlag call: the nonce GET against the
challenge-creation page always happens; the multipart POST happens exactly
when the nonce was obtained. -/
def createFlagTrace (st : FlagStep) (nm : String) : List Ev :=
  match getNonce st.nonceFetch with
  | Except.error _ => [Ev.getNonceEv Pg.chalNewPg]
  | Except.ok _ => [Ev.getNonceEv Pg.chalNewPg, Ev.postChalEv nm]

/-- Error result of one createFlag call: a nonce-fetch error is returned
first; otherwise the POST outcome decides, with the response status never
inspected. -/
def createFlagErr (st : FlagStep) : Option Err :=
  match getNonce st.nonceFetch with
  | Except.error e => some e
  | Except.ok _ => submitResult st.post

/-- Embedding of the flag loop of configureInstance: iterate the flags in
order, run createFlag for each, return the first error and stop there.
`envs i` is the environment of the i-th createFlag call, counted from
`start`. -/
def seedFlags (envs : Nat → FlagStep) : List FlagConfig → Nat → List Ev × Option Err
  | [], _ => ([], none)
  | f :: fs, i =>
    let tr := createFlagTrace (envs i) f.flagName
    match createFlagErr (envs i) with
    | some e => (tr, some e)
    | none =>
      let rest := seedFlags envs fs (i + 1)
      (tr ++ rest.1, rest.2)

/-- Challenge names actually posted in a trace, in order. -/
def postedNames (tr : List Ev) : List String :=
  tr.filterMap (fun e =>
    match e with
    | Ev.postChalEv n => some n
    | _ => none)

/-- Expected event trace of a fully successful seeding run: for each flag,
its own nonce fetch from the challenge-creation page immediately followed
by its multipart POST. -/
def seededTrace : List FlagConfig → List Ev
  | [] => []
  | f :: fs => Ev.getNonceEv Pg.chalNewPg :: Ev.postChalEv f.flagName :: seededTrace fs

/-- C2 counterexample: a challenge-creation submission whose nonce fetch
succeeds and whose POST draws an application-level 403 rejection — the
stale-nonce case — is reported as success: the source never inspects the
response status, so the rejection is silently accepted rather than failing
with an HTTPError. -/
theorem submit_nonce_reuse_cex :
    createFlagErr
        { nonceFetch := FetchOutcome.ok ("csrf_nonce = ".toList ++ ['"', 't', '"']),
          post := SubmitOutcome.response 403 } = none := by
  rfl

/-- C2 amended: a form submission fails only on a transport-level failure
of the POST; the response status code is never inspected, so every
application response — 2xx or not, including a stale-nonce rejection — is
accepted as success, for the multipart challenge-creation post and for the
URL-encoded setup post alike. -/
theorem submit_ignores_status (s : Nat) (body : List Char)
    (hb : ∃ v, findNonce body = some v) :
    createFlagErr { nonceFetch := FetchOutcome.ok body, post := SubmitOutcome.response s }
        = none ∧
      createFlagErr { nonceFetch := FetchOutcome.ok body, post := SubmitOutcome.transportErr }
        = some Err.transport ∧
      submitResult (SubmitOutcome.response s) = none ∧
      submitResult SubmitOutcome.transportErr = some Err.transport := by
  obtain ⟨v, hv⟩ := hb
  refine ⟨?_, ?_, rfl, rfl⟩ <;> simp [createFlagErr, getNonce, hv, submitResult]

theorem submit_ignores_status_witness :
    createFlagErr
        { nonceFetch := FetchOutcome.ok ("csrf_nonce = ".toList ++ ['"', 't', '"']),
          post := SubmitOutcome.response 500 } = none ∧
      createFlagErr
          { nonceFetch := FetchOutcome.ok ("csrf_nonce = ".toList ++ ['"', 't', '"']),
            post := SubmitOutcome.transportErr } = some Err.transport ∧
      submitResult (SubmitOutcome.response 500) = none ∧
      submitResult SubmitOutcome.transportErr = some Err.transport :=
  submit_ignores_status 500 ("csrf_nonce = ".toList ++ ['"', 't', '"']) ⟨['t'], by rfl⟩

theorem createFlagTrace_of_ok (st : FlagStep) (nm : String)
    (h : createFlagErr st = none) :
    createFlagTrace st nm = [Ev.getNonceEv Pg.chalNewPg, Ev.postChalEv nm] := by
  unfold createFlagErr at h
  unfold createFlagTrace
  cases hg : getNonce st.nonceFetch with
  | error e => rw [hg] at h; simp at h
  | ok v => rfl

theorem seedFlags_all_ok (envs : Nat → FlagStep)
    (h : ∀ i, createFlagErr (envs i) = none) :
    ∀ flags start, seedFlags envs flags start = (seededTrace flags, none) := by
  intro flags
  induction flags with
  | nil => intro start; rfl
  | cons f fs ih =>
      intro start
      have htr := createFlagTrace_of_ok (envs start) f.flagName (h start)
      simp [seedFlags, h start, htr, ih (start + 1), seededTrace]

theorem postedNames_append (t1 t2 : List Ev) :
    postedNames (t1 ++ t2) = postedNames t1 ++ postedNames t2 := by
  simp [postedNames]

theorem seedFlags_first_failure (envs : Nat → FlagStep) :
    ∀ flags j start, j < flags.length →
      (∀ i, i < j → createFlagErr (envs (start + i)) = none) →
      (∃ v, getNonce (envs (start + j)).nonceFetch = Except.ok v) →
      (envs (start + j)).post = SubmitOutcome.transportErr →
      (seedFlags envs flags start).2 = some Err.transport ∧
        postedNames (seedFlags envs flags start).1 =
          (flags.take (j + 1)).map (fun f => f.flagName) := by
  intro flags
  induction flags with
  | nil => intro j start hj; simp at hj
  | cons f fs ih =>
      intro j start hj hgood hnonce hpost
      cases j with
      | zero =>
          obtain ⟨v, hv⟩ := hnonce
          rw [Nat.add_zero] at hv hpost
          have herr : createFlagErr (envs start) = some Err.transport := by
            simp [createFlagErr, hv, hpost, submitResult]
          have htr : createFlagTrace (envs start) f.flagName =
              [Ev.getNonceEv Pg.chalNewPg, Ev.postChalEv f.flagName] := by
            simp [createFlagTrace, hv]
          simp [seedFlags, herr, htr, postedNames]
      | succ j =>
          have h0 : createFlagErr (envs start) = none := by
            have := hgood 0 (Nat.succ_pos j)
            simpa using this
          have htr := createFlagTrace_of_ok (envs start) f.flagName h0
          have hgood2 : ∀ i, i < j → createFlagErr (envs (start + 1 + i)) = none := by
            intro i hi
            have := hgood (i + 1) (by omega)
            have harith : start + (i + 1) = start + 1 + i := by omega
            rwa [harith] at this
          have hshift : start + (j + 1) = start + 1 + j := by omega
          rw [hshift] at hnonce hpost
          have hj2 : j < fs.length := by
            simp at hj
            omega
          have hrec := ih j (start + 1) hj2 hgood2 hnonce hpost
          simp only [seedFlags, h0, htr]
          constructor
          · exact hrec.1
          · rw [postedNames_append, hrec.2]
            simp [postedNames, List.take, List.map]

/-- C6: for every nonzero-length flag list, the seeding loop issues exactly
one challenge-creation submission per definition, in input order, each
submission preceded by its own fresh nonce fetch from the
challenge-creation page (the fully successful trace is exactly the
per-flag nonce-fetch/POST pairs in order); and when the j-th submission is
the first to fail, the error is returned to the caller and the posted
challenges are exactly the first j+1 flags — the remaining flags are never
submitted. -/
theorem seeder_order_and_abort (flags : List FlagConfig) (envs : Nat → FlagStep)
    (_hne : flags ≠ []) :
    ((∀ i, createFlagErr (envs i) = none) →
      seedFlags envs flags 0 = (seededTrace flags, none)) ∧
    (∀ j, j < flags.length →
      (∀ i, i < j → createFlagErr (envs i) = none) →
      (∃ v, getNonce (envs j).nonceFetch = Except.ok v) →
      (envs j).post = SubmitOutcome.transportErr →
      (seedFlags envs flags 0).2 = some Err.transport ∧
        postedNames (seedFlags envs flags 0).1 =
          (flags.take (j + 1)).map (fun f => f.flagName)) := by
  constructor
  · intro h
    exact seedFlags_all_ok envs h flags 0
  · intro j hj hgood hnonce hpost
    have := seedFlags_first_failure envs flags j 0 hj (by simpa using hgood)
      (by simpa using hnonce) (by simpa using hpost)
    exact this

/-- Nonce page body used in concrete examples. -/
def sampleBody : List Char := "csrf_nonce = ".toList ++ ['"', 't', '"']

/-- Per-call environment in which every createFlag call succeeds. -/
def okEnvs : Nat → FlagStep :=
  fun _ => ⟨FetchOutcome.ok sampleBody, SubmitOutcome.response 200⟩

/-- Per-call environment in which the second POST fails at transport
level and all other calls succeed. -/
def failAt1Envs : Nat → FlagStep :=
  fun i => ⟨FetchOutcome.ok sampleBody,
    if i = 1 then SubmitOutcome.transportErr else SubmitOutcome.response 200⟩

/-- Two concrete flag definitions. -/
def demoFlags : List FlagConfig :=
  [⟨"A", "secretA", 100⟩, ⟨"B", "secretB", 200⟩]

/-- Three concrete flag definitions. -/
def demoFlags3 : List FlagConfig :=
  [⟨"A", "secretA", 100⟩, ⟨"B", "secretB", 200⟩, ⟨"C", "secretC", 300⟩]

theorem seeder_order_and_abort_witness :
    seedFlags okEnvs demoFlags 0 = (seededTrace demoFlags, none) ∧
      postedNames (seedFlags failAt1Envs demoFlags3 0).1 = ["A", "B"] :=
  ⟨(seeder_order_and_abort demoFlags okEnvs (by simp [demoFlags])).1 (fun i => by rfl),
   ((seeder_order_and_abort demoFlags3 failAt1Envs (by simp [demoFlags3])).2 1
      (by simp [demoFlags3])
      (fun i hi => by
        have hz : i = 0 := by omega
        subst hz
        rfl)
      ⟨['t'], by rfl⟩ (by rfl)).2⟩

/-- Container configuration as built by New: image reference, bind mount of
the data directory, the ADMIN_HOST environment variable, bridge networking,
and whether the platform port is published to the fixed local address. -/
structure ContainerConfig where
  image : String
  dataMountDir : String
  adminHostEnv : String
  useBridge : Bool
  portBound : Bool
deriving DecidableEq

/-- Shared base configuration of both containers in New. -/
def baseConf (confDir hostIp : String) : ContainerConfig :=
  ⟨"registry.sec-aau.dk/aau/ctfd", confDir, hostIp, true, false⟩

/-- Setup-container configuration: the base with 8000/tcp published to
127.0.0.1:8000. -/
def initConf (confDir hostIp : String) : ContainerConfig :=
  { baseConf confDir hostIp with portBound := true }

/-- Serving-container configuration: a plain copy of the base, no port
published. -/
def finalConf (confDir hostIp : String) : ContainerConfig :=
  baseConf confDir hostIp

/-- Environment of one configureInstance call: probe outcomes for the
readiness poll, the setup-page nonce GET, the URL-encoded setup POST, and
one FlagStep per declared flag. -/
structure ConfEnv where
  pollOutcomes : Nat → Probe
  setupFetch : FetchOutcome
  setupPost : SubmitOutcome
  flagEnvs : Nat → FlagStep

/-- Embedding of configureInstance: wait for the setup endpoint, fetch the
setup-page nonce, POST the URL-encoded admin form — whose response status
is never inspected — then run the flag loop. The first error stops the
sequence and is returned. -/
def configureInstance (env : ConfEnv) (flags : List FlagConfig) : List Ev × Option Err :=
  match (waitForServer env.pollOutcomes waitForServerTimeout).1 with
  | PollResult.unavailable => ([Ev.waitReadyEv], some Err.serverUnavailable)
  | PollResult.fatal c => ([Ev.waitReadyEv], some (Err.badStatus c))
  | PollResult.ok =>
    match getNonce env.setupFetch with
    | Except.error e => ([Ev.waitReadyEv, Ev.getNonceEv Pg.setupPg], some e)
    | Except.ok _ =>
      match submitResult env.setupPost with
      | some e => ([Ev.waitReadyEv, Ev.getNonceEv Pg.setupPg, Ev.postSetupEv], some e)
      | none =>
        let rest := seedFlags env.flagEnvs flags 0
        (Ev.waitReadyEv :: Ev.getNonceEv Pg.setupPg :: Ev.postSetupEv :: rest.1, rest.2)

/-- Environment of one New call: which collaborator steps fail, in the
order the source consults them, plus the configuration environment. -/
structure NewEnv where
  jarFail : Bool
  hostIpFail : Bool
  tempDirFail : Bool
  createSetupFail : Bool
  startSetupFail : Bool
  confEnv : ConfEnv
  closeSetupFail : Bool
  createServingFail : Bool

/-- Embedding of New: cookie jar, host address lookup, temp data directory,
setup container creation and start, configureInstance, setup container
close, serving container creation — each failure aborting immediately with
its error, no compensating cleanup anywhere, and no start of the serving
container. -/
def NewRun (env : NewEnv) (flags : List FlagConfig) : List Ev × Option Err :=
  if env.jarFail then ([], some Err.cookieJar) else
  if env.hostIpFail then ([], some Err.hostIp) else
  if env.tempDirFail then ([], some Err.tempDir) else
  if env.createSetupFail then
    ([Ev.tempDirEv, Ev.newContainerEv true], some Err.containerCreate) else
  if env.startSetupFail then
    ([Ev.tempDirEv, Ev.newContainerEv true, Ev.startContainerEv true],
      some Err.containerStart)
  else
    let conf := configureInstance env.confEnv flags
    match conf.2 with
    | some e =>
        ([Ev.tempDirEv, Ev.newContainerEv true, Ev.startContainerEv true] ++ conf.1,
          some e)
    | none =>
        if env.closeSetupFail then
          ([Ev.tempDirEv, Ev.newContainerEv true, Ev.startContainerEv true] ++ conf.1
            ++ [Ev.closeContainerEv true], some Err.containerClose)
        else
          ([Ev.tempDirEv, Ev.newContainerEv true, Ev.startContainerEv true] ++ conf.1
            ++ [Ev.closeContainerEv true, Ev.newContainerEv false],
            if env.createServingFail then some Err.containerCreate else none)

theorem seedFlags_trace_shape (envs : Nat → FlagStep) :
    ∀ flags start e, e ∈ (seedFlags envs flags start).1 →
      e = Ev.getNonceEv Pg.chalNewPg ∨ ∃ n, e = Ev.postChalEv n := by
  intro flags
  induction flags with
  | nil => intro start e he; simp [seedFlags] at he
  | cons f fs ih =>
      intro start e he
      have hstep : ∀ x, x ∈ createFlagTrace (envs start) f.flagName →
          x = Ev.getNonceEv Pg.chalNewPg ∨ ∃ n, x = Ev.postChalEv n := by
        intro x hx
        unfold createFlagTrace at hx
        cases hg : getNonce (envs start).nonceFetch with
        | error e2 =>
            rw [hg] at hx
            simp at hx
            exact Or.inl hx
        | ok v =>
            rw [hg] at hx
            simp at hx
            cases hx with
            | inl h => exact Or.inl h
            | inr h => exact Or.inr ⟨f.flagName, h⟩
      unfold seedFlags at he
      cases hc : createFlagErr (envs start) with
      | some e2 =>
          rw [hc] at he
          simp at he
          exact hstep e he
      | none =>
          rw [hc] at he
          simp at he
          cases he with
          | inl h => exact hstep e h
          | inr h => exact ih (start + 1) e h

theorem configure_trace_shape (env : ConfEnv) (flags : List FlagConfig) :
    ∀ e, e ∈ (configureInstance env flags).1 →
      e = Ev.waitReadyEv ∨ (∃ p, e = Ev.getNonceEv p) ∨ e = Ev.postSetupEv ∨
        ∃ n, e = Ev.postChalEv n := by
  intro e he
  unfold configureInstance at he
  cases hp : (waitForServer env.pollOutcomes waitForServerTimeout).1 with
  | unavailable => rw [hp] at he; simp at he; exact Or.inl he
  | fatal c => rw [hp] at he; simp at he; exact Or.inl he
  | ok =>
      rw [hp] at he
      cases hg : getNonce env.setupFetch with
      | error e2 =>
          rw [hg] at he
          simp at he
          rcases he with h | h
          · exact Or.inl h
          · exact Or.inr (Or.inl ⟨Pg.setupPg, h⟩)
      | ok v =>
          rw [hg] at he
          cases hs : submitResult env.setupPost with
          | some e2 =>
              rw [hs] at he
              simp at he
              rcases he with h | h | h
              · exact Or.inl h
              · exact Or.inr (Or.inl ⟨Pg.setupPg, h⟩)
              · exact Or.inr (Or.inr (Or.inl h))
          | none =>
              rw [hs] at he
              simp at he
              rcases he with h | h | h | h
              · exact Or.inl h
              · exact Or.inr (Or.inl ⟨Pg.setupPg, h⟩)
              · exact Or.inr (Or.inr (Or.inl h))
              · rcases seedFlags_trace_shape env.flagEnvs flags 0 e h with h2 | h2
                · exact Or.inr (Or.inl ⟨Pg.chalNewPg, h2⟩)
                · exact Or.inr (Or.inr (Or.inr h2))

theorem configure_no_container_events (env : ConfEnv) (flags : List FlagConfig) :
    ∀ b, Ev.startContainerEv b ∉ (configureInstance env flags).1 := by
  intro b hmem
  rcases configure_trace_shape env flags (Ev.startContainerEv b) hmem with
    h | ⟨p, h⟩ | h | ⟨n, h⟩ <;> exact Ev.noConfusion h

/-- C7 amended: after configuration and flag seeding succeed, New closes
the setup container and then creates the serving container from the shared
base configuration — identical image, data mount and environment, with no
published port — and returns it WITHOUT starting it and without re-running
readiness polling, configuration or seeding: the only events after the
setup-container close are the single serving-container creation. The
serving container is started later by the separate Start method, so the
instance New returns is not yet live. -/
theorem new_handoff_without_start (env : NewEnv) (flags : List FlagConfig)
    (confDir hostIp : String)
    (h1 : env.jarFail = false) (h2 : env.hostIpFail = false)
    (h3 : env.tempDirFail = false) (h4 : env.createSetupFail = false)
    (h5 : env.startSetupFail = false)
    (hc : (configureInstance env.confEnv flags).2 = none)
    (h6 : env.closeSetupFail = false) (h7 : env.createServingFail = false) :
    NewRun env flags =
      ([Ev.tempDirEv, Ev.newContainerEv true, Ev.startContainerEv true]
        ++ (configureInstance env.confEnv flags).1
        ++ [Ev.closeContainerEv true, Ev.newContainerEv false], none) ∧
      Ev.startContainerEv false ∉ (NewRun env flags).1 ∧
      finalConf confDir hostIp = baseConf confDir hostIp ∧
      (initConf confDir hostIp).dataMountDir = (finalConf confDir hostIp).dataMountDir := by
  have heq : NewRun env flags =
      ([Ev.tempDirEv, Ev.newContainerEv true, Ev.startContainerEv true]
        ++ (configureInstance env.confEnv flags).1
        ++ [Ev.closeContainerEv true, Ev.newContainerEv false], none) := by
    simp [NewRun, h1, h2, h3, h4, h5, h6, h7, hc]
  refine ⟨heq, ?_, rfl, rfl⟩
  rw [heq]
  intro hmem
  rcases List.mem_append.mp hmem with hm1 | hm2
  · rcases List.mem_append.mp hm1 with hm3 | hm4
    · exact absurd hm3 (by decide)
    · exact configure_no_container_events env.confEnv flags false hm4
  · exact absurd hm2 (by decide)

/-- Concrete environment in which every step of New succeeds. -/
def okConfEnv : ConfEnv :=
  ⟨fun _ => Probe.status 200, FetchOutcome.ok sampleBody,
    SubmitOutcome.response 200, okEnvs⟩

/-- Concrete New environment with no failures at all. -/
def okNewEnv : NewEnv :=
  ⟨false, false, false, false, false, okConfEnv, false, false⟩

theorem new_handoff_without_start_witness :
    NewRun okNewEnv demoFlags =
      ([Ev.tempDirEv, Ev.newContainerEv true, Ev.startContainerEv true]
        ++ (configureInstance okConfEnv demoFlags).1
        ++ [Ev.closeContainerEv true, Ev.newContainerEv false], none) ∧
      Ev.startContainerEv false ∉ (NewRun okNewEnv demoFlags).1 ∧
      finalConf "dir" "ip" = baseConf "dir" "ip" ∧
      (initConf "dir" "ip").dataMountDir = (finalConf "dir" "ip").dataMountDir :=
  new_handoff_without_start okNewEnv demoFlags "dir" "ip"
    rfl rfl rfl rfl rfl (by rfl) rfl rfl

/-- C7 counterexample: in a run of New where every step succeeds, the
returned instance's serving container was created but never started — the
trace of the successful run contains no start event for the serving
container, so the instance New returns is not yet Serving. -/
theorem new_serving_not_started_cex :
    (NewRun okNewEnv demoFlags).2 = none ∧
      Ev.newContainerEv false ∈ (NewRun okNewEnv demoFlags).1 ∧
      Ev.startContainerEv false ∉ (NewRun okNewEnv demoFlags).1 := by
  refine ⟨rfl, ?_, ?_⟩ <;> decide

/-- C8: when the setup container fails to start (all earlier steps having
succeeded), New returns the container error at once: the run performed no
readiness polling, no nonce fetches, no form submissions of either kind,
created neither started nor unstarted serving container, and did not
remove the data directory it had created (no compensating cleanup: the
event vocabulary of New contains no removal at all and the temp directory
creation is in the trace). -/
theorem new_aborts_on_setup_start_failure (env : NewEnv) (flags : List FlagConfig)
    (h1 : env.jarFail = false) (h2 : env.hostIpFail = false)
    (h3 : env.tempDirFail = false) (h4 : env.createSetupFail = false)
    (h5 : env.startSetupFail = true) :
    NewRun env flags =
      ([Ev.tempDirEv, Ev.newContainerEv true, Ev.startContainerEv true],
        some Err.containerStart) ∧
      Ev.waitReadyEv ∉ (NewRun env flags).1 ∧
      (∀ p, Ev.getNonceEv p ∉ (NewRun env flags).1) ∧
      Ev.postSetupEv ∉ (NewRun env flags).1 ∧
      (∀ n, Ev.postChalEv n ∉ (NewRun env flags).1) ∧
      Ev.newContainerEv false ∉ (NewRun env flags).1 ∧
      Ev.startContainerEv false ∉ (NewRun env flags).1 ∧
      Ev.tempDirEv ∈ (NewRun env flags).1 := by
  have heq : NewRun env flags =
      ([Ev.tempDirEv, Ev.newContainerEv true, Ev.startContainerEv true],
        some Err.containerStart) := by
    simp [NewRun, h1, h2, h3, h4, h5]
  rw [heq]
  refine ⟨rfl, by simp, fun p => by simp, by simp, fun n => by simp, by simp, by simp, by simp⟩

/-- Concrete New environment in which only the setup-container start
fails. -/
def startFailEnv : NewEnv :=
  ⟨false, false, false, false, true, okConfEnv, false, false⟩

theorem new_aborts_on_setup_start_failure_witness :
    NewRun startFailEnv demoFlags =
      ([Ev.tempDirEv, Ev.newContainerEv true, Ev.startContainerEv true],
        some Err.containerStart) ∧
      Ev.waitReadyEv ∉ (NewRun startFailEnv demoFlags).1 :=
  match new_aborts_on_setup_start_failure startFailEnv demoFlags rfl rfl rfl rfl rfl with
  | ⟨he, hw, _, _, _, _, _, _⟩ => ⟨he, hw⟩

/-- Events of the Close method of the instance. -/
inductive CloseEv
  | removeDataDir
  | closeContainer
deriving DecidableEq

/-- Environment of one Close call: whether os.RemoveAll fails and whether
the container close fails. -/
structure CloseEnv where
  removeFails : Bool
  contCloseFails : Bool
deriving DecidableEq

/-- Embedding of the Close method: remove the data directory first,
returning its error immediately on failure, then close the container
handle, propagating its error. -/
def ctfdClose (env : CloseEnv) : List CloseEv × Option Err :=
  if env.removeFails then ([CloseEv.removeDataDir], some Err.removeFail)
  else if env.contCloseFails then
    ([CloseEv.removeDataDir, CloseEv.closeContainer], some Err.containerClose)
  else ([CloseEv.removeDataDir, CloseEv.closeContainer], none)

/-- C1 counterexample: in a successful teardown the data-mount removal is
the first event and the container close the second — removal of the data
path PRECEDES the container stop, the opposite order to the claimed
invariant that removal never precedes the stop. -/
theorem close_remove_precedes_stop_cex :
    ctfdClose ⟨false, false⟩ =
      ([CloseEv.removeDataDir, CloseEv.closeContainer], none) ∧
      List.indexOf CloseEv.removeDataDir (ctfdClose ⟨false, false⟩).1 <
        List.indexOf CloseEv.closeContainer (ctfdClose ⟨false, false⟩).1 := by
  refine ⟨rfl, ?_⟩
  decide

/-- C1 amended: teardown removes the persistent data path FIRST and only
then closes the container handle: in every run of Close the first event is
the data-path removal, and any container-close event is strictly preceded
by the removal; errors propagate to the caller without rollback. -/
theorem close_removes_then_closes (env : CloseEnv) :
    (ctfdClose env).1.head? = some CloseEv.removeDataDir ∧
      ∀ i, (ctfdClose env).1.get? i = some CloseEv.closeContainer →
        ∃ j, j < i ∧ (ctfdClose env).1.get? j = some CloseEv.removeDataDir := by
  unfold ctfdClose
  by_cases h1 : env.removeFails
  · simp [h1]
    intro i hi
    match i, hi with
    | 0, hi => exact absurd hi (by simp)
    | n + 1, hi => exact absurd hi (by simp)
  · by_cases h2 : env.contCloseFails <;>
      · simp [h1, h2]
        intro i hi
        match i, hi with
        | 0, hi => exact absurd hi (by simp)
        | 1, hi => exact ⟨0, by omega, rfl⟩
        | n + 2, hi => exact absurd hi (by simp)

theorem close_removes_then_closes_witness :
    (ctfdClose ⟨false, true⟩).1.head? = some CloseEv.removeDataDir ∧
      ∃ j, j < 1 ∧ (ctfdClose ⟨false, true⟩).1.get? j = some CloseEv.removeDataDir :=
  ⟨(close_removes_then_closes ⟨false, true⟩).1,
   (close_removes_then_closes ⟨false, true⟩).2 1 (by rfl)⟩

/-- C10: when the data-directory removal fails during Close, that removal
error is returned immediately and the container handle is neither closed
nor stopped; the container close happens only in runs where the removal
succeeded first. -/
theorem close_remove_failure_skips_container (env : CloseEnv) :
    (env.removeFails = true →
      ctfdClose env = ([CloseEv.removeDataDir], some Err.removeFail)) ∧
    (CloseEv.closeContainer ∈ (ctfdClose env).1 → env.removeFails = false) := by
  by_cases h1 : env.removeFails <;> by_cases h2 : env.contCloseFails <;>
    simp [ctfdClose, h1, h2]

theorem close_remove_failure_skips_container_witness :
    ctfdClose ⟨true, false⟩ = ([CloseEv.removeDataDir], some Err.removeFail) ∧
      (CloseEv.closeContainer ∈ (ctfdClose ⟨false, false⟩).1 →
        CloseEnv.removeFails ⟨false, false⟩ = false) :=
  ⟨(close_remove_failure_skips_container ⟨true, false⟩).1 rfl,
   (close_remove_failure_skips_container ⟨false, false⟩).2⟩

/-- C9: all cancellation in the subsystem is by fixed deadline — one minute
(sixty one-second units) governing the readiness poll inside instance
creation, thirty seconds for the outer stop command and sixty seconds for
the outer restart command — and the poller consults its deadline only
between attempts: an attempt whose terminal outcome arrives strictly
inside the deadline is never abandoned mid-flight, its outcome is always
the poll result. -/
theorem fixed_timeouts_and_boundary_cancellation :
    waitForServerTimeout = 60 ∧ cmdEventStopTimeout = 30 ∧
      cmdEventTeamRestartTimeout = 60 ∧
      ∀ (o : Nat → Probe) k c, (∀ j, j < k → o j = Probe.transport) →
        o k = Probe.status c → k < waitForServerTimeout →
        (waitForServer o waitForServerTimeout).1 ≠ PollResult.unavailable := by
  refine ⟨rfl, rfl, rfl, ?_⟩
  intro o k c hk hc hkd hbad
  rw [waitForServer, waitLoop_unavailable] at hbad
  have := hbad k hkd
  rw [Nat.zero_add, hc] at this
  exact Probe.noConfusion this

theorem fixed_timeouts_and_boundary_cancellation_witness :
    waitForServerTimeout = 60 ∧
      (waitForServer (fun _ => Probe.status 200) waitForServerTimeout).1 ≠
        PollResult.unavailable :=
  ⟨fixed_timeouts_and_boundary_cancellation.1,
   fixed_timeouts_and_boundary_cancellation.2.2.2 (fun _ => Probe.status 200) 0 200
     (fun j hj => absurd hj (Nat.not_lt_zero j)) rfl (by decide)⟩

end CtfdSpec
